import Mathlib

/-!
Verification of the ESPy32 stepper-motor controller (`src/Stepper/stepper.py`).

Shallow embedding conventions:
* Python floats are modelled as exact rationals (`ℚ`); Python ints as `ℤ`.
* A Python numeric value that may be either an int or a float is modelled by
  `PyNum`; true division always yields a `pfloat`, so `rotate_degs` produces a
  `pfloat` step count while `rotate_revs` / `rotate_steps` produce a `pint`.
* Exceptions (`ZeroDivisionError` from dividing by zero, `TypeError` from
  `range()` applied to a float) are modelled with `Except`.
* The GPIO side effects of a completed move are recorded in a `MoveTrace`:
  the value written to the direction pin (if present), whether the enable
  line was asserted at setup, the list of half-step sleep intervals (µs, one
  entry per step pulse; each is slept twice, pulse-high and pulse-low), and
  the final state of the enable line.
-/

/-- Python runtime errors that the stepper code can raise. -/
inductive PyError
  | zeroDivisionError
  | typeError
deriving DecidableEq, Repr

/-- A Python numeric value: an int, or a float (modelled as an exact rational). -/
inductive PyNum
  | pint (n : ℤ)
  | pfloat (q : ℚ)
deriving DecidableEq, Repr

/-- Numeric value of a `PyNum`. -/
def PyNum.toQ : PyNum → ℚ
  | .pint n => (n : ℚ)
  | .pfloat q => q

/-- Python `int(x)`: truncation toward zero. -/
def pyInt (q : ℚ) : ℤ := if 0 ≤ q then ⌊q⌋ else ⌈q⌉

/-- State of a `Stepper` object (`Stepper.__init__` fields). The pins are
modelled by whether they exist (`self._dir_pin` / `self._en_pin` are either
`False` or a pin object). -/
structure Stepper where
  hasDir : Bool
  hasEn : Bool
  microsteps : ℤ
  initial_speed : ℚ
  initial_step_us : ℚ
  target_speed : ℚ
  target_step_us : ℚ
  accel_rate : ℚ
deriving DecidableEq, Repr

/-- `Stepper.get_step_us`: `ceil((1.8 / (6 * speed * self.microsteps)) * pow(10, 6))`.
Raises `ZeroDivisionError` when the denominator is zero. -/
def Stepper.get_step_us (s : Stepper) (speed : ℚ) : Except PyError ℤ :=
  if 6 * speed * (s.microsteps : ℚ) = 0 then .error .zeroDivisionError
  else .ok ⌈(18 / 10 : ℚ) / (6 * speed * (s.microsteps : ℚ)) * 10 ^ 6⌉

/-- `Stepper.__init__(stp_pin, dir_pin, en_pin)`: microsteps 1, initial and
target speed 200 rpm, both cached step intervals computed by `get_step_us`
(the constructor call cannot fail: its denominator is 1200), accel rate 0. -/
def Stepper.init (hasDir hasEn : Bool) : Stepper :=
  let s0 : Stepper :=
    { hasDir := hasDir, hasEn := hasEn, microsteps := 1,
      initial_speed := 200, initial_step_us := 0,
      target_speed := 200, target_step_us := 0, accel_rate := 0 }
  let us : ℚ := ((s0.get_step_us s0.initial_speed).toOption.getD 0 : ℤ)
  { s0 with initial_step_us := us, target_step_us := us }

/-- `microsteps` setter: assigns only when the value is in `[1, 2, 4, 8, 16, 32]`;
otherwise the assignment is a silent no-op. -/
def Stepper.set_microsteps (s : Stepper) (u_steps : ℤ) : Stepper :=
  if u_steps = 1 ∨ u_steps = 2 ∨ u_steps = 4 ∨ u_steps = 8 ∨ u_steps = 16 ∨ u_steps = 32
  then { s with microsteps := u_steps }
  else s

/-- `initial_speed` setter: stores the rpm, then recomputes the cached
interval. When `get_step_us` raises, the rpm has already been stored but the
cached interval is left unchanged; the raised error is returned alongside. -/
def Stepper.set_initial_speed (s : Stepper) (new_speed : ℚ) : Stepper × Option PyError :=
  let s1 := { s with initial_speed := new_speed }
  match s1.get_step_us s1.initial_speed with
  | .error e => (s1, some e)
  | .ok us => ({ s1 with initial_step_us := (us : ℚ) }, none)

/-- `target_speed` setter: stores the rpm, then recomputes the cached
interval; same error behaviour as the `initial_speed` setter. -/
def Stepper.set_target_speed (s : Stepper) (new_speed : ℚ) : Stepper × Option PyError :=
  let s1 := { s with target_speed := new_speed }
  match s1.get_step_us s1.target_speed with
  | .error e => (s1, some e)
  | .ok us => ({ s1 with target_step_us := (us : ℚ) }, none)

/-- `accel_rate` setter: accepts an integer percent in `range(101)` and stores
`percent / 100`; out-of-range values are silently ignored. -/
def Stepper.set_accel_rate (s : Stepper) (percent : ℤ) : Stepper :=
  if 0 ≤ percent ∧ percent ≤ 100 then { s with accel_rate := (percent : ℚ) / 100 } else s

/-- `steps_to_accel = (steps * self.accel_rate) / 2` (inside `_rotate.mode`). -/
def Stepper.steps_to_accel (s : Stepper) (stepsQ : ℚ) : ℚ :=
  stepsQ * s.accel_rate / 2

/-- `accel_point = steps_to_accel` (inside `_rotate.mode`). -/
def Stepper.accel_point (s : Stepper) (stepsQ : ℚ) : ℚ :=
  s.steps_to_accel stepsQ

/-- `decel_point = (steps - 1) - steps_to_accel` (inside `_rotate.mode`). -/
def Stepper.decel_point (s : Stepper) (stepsQ : ℚ) : ℚ :=
  (stepsQ - 1) - s.steps_to_accel stepsQ

/-- `increment = delta_accel / steps_to_accel` where
`delta_accel = (self._initial_step_us - self._target_step_us) / 2`
(inside `_rotate.mode`). -/
def Stepper.increment (s : Stepper) (stepsQ : ℚ) : ℚ :=
  ((s.initial_step_us - s.target_step_us) / 2) / s.steps_to_accel stepsQ

/-- The ramp adjustment applied to `step_interval` after iteration `step` of
the step loop (the `if self.accel_rate:` block in the loop body):
subtract `increment` while `step < accel_point`, else add it when
`step >= decel_point`, else leave it unchanged. -/
def rampAdjust (accel_point decel_point increment : ℚ) (step : ℕ) (si : ℚ) : ℚ :=
  if (step : ℚ) < accel_point then si - increment
  else if decel_point ≤ (step : ℚ) then si + increment
  else si

/-- Value of the loop variable `step_interval` at the top of iteration `i`
of the step loop: the initial value `si0`, adjusted once per completed
iteration (only when acceleration is active). -/
def siSeq (hasAccel : Bool) (a d inc si0 : ℚ) : ℕ → ℚ
  | 0 => si0
  | i + 1 =>
      if hasAccel then rampAdjust a d inc i (siSeq hasAccel a d inc si0 i)
      else siSeq hasAccel a d inc si0 i

/-- The result of a completed rotate call. -/
structure MoveTrace where
  dirSet : Option ℤ
  enAsserted : Bool
  intervals : List ℤ
  enFinal : Option Bool
deriving DecidableEq, Repr

/-- Direction/enable setup, the `for step in range(steps)` pulse loop, and
the hold-release policy of `_rotate.mode`. `range()` applied to a float
raises `TypeError` (the direction/enable setup has already happened by then,
but the move aborts and no trace is produced). Each recorded interval is
`int(step_interval)`, slept twice per step pulse. -/
def Stepper.runLoop (s : Stepper) (stepsVal : PyNum) (rot_dir : ℤ) (hold : Bool)
    (hasAccel : Bool) (a d inc si0 : ℚ) : Except PyError MoveTrace :=
  match stepsVal with
  | .pfloat _ => .error .typeError
  | .pint m =>
      .ok { dirSet := if s.hasDir then some rot_dir else none,
            enAsserted := s.hasEn,
            intervals := (List.range m.toNat).map (fun i => pyInt (siSeq hasAccel a d inc si0 i)),
            enFinal := if s.hasEn then some hold else none }

/-- `_rotate.mode(self, n, rot_dir, hold)` after the unit-specific `to_steps`
conversion. With `accel_rate` falsy the loop runs flat at
`int(self._target_step_us / 2)`; otherwise the ramp parameters are computed
first — `increment = delta_accel / steps_to_accel` raises `ZeroDivisionError`
when `steps_to_accel == 0`, before any pin is touched — and the loop starts
at `int(self._initial_step_us / 2)`. -/
def Stepper.mode (s : Stepper) (stepsVal : PyNum) (rot_dir : ℤ) (hold : Bool) :
    Except PyError MoveTrace :=
  if s.accel_rate = 0 then
    s.runLoop stepsVal rot_dir hold false 0 0 0 ((pyInt (s.target_step_us / 2) : ℚ))
  else if s.steps_to_accel stepsVal.toQ = 0 then .error .zeroDivisionError
  else
    s.runLoop stepsVal rot_dir hold true (s.accel_point stepsVal.toQ)
      (s.decel_point stepsVal.toQ) (s.increment stepsVal.toQ)
      ((pyInt (s.initial_step_us / 2) : ℚ))

/-- `rotate_degs`'s `to_steps`: `(degs / 360) * 200 * self.microsteps`.
True division makes this a Python float. -/
def Stepper.degs_to_steps (s : Stepper) (degs : ℚ) : PyNum :=
  .pfloat (degs / 360 * 200 * (s.microsteps : ℚ))

/-- `rotate_revs`'s `to_steps`: `revs * 200 * self.microsteps` (an int). -/
def Stepper.revs_to_steps (s : Stepper) (revs : ℤ) : PyNum :=
  .pint (revs * 200 * s.microsteps)

/-- `rotate_degs(degs, rot_dir, hold)`. -/
def Stepper.rotate_degs (s : Stepper) (degs : ℚ) (rot_dir : ℤ) (hold : Bool) :
    Except PyError MoveTrace :=
  s.mode (s.degs_to_steps degs) rot_dir hold

/-- `rotate_revs(revs, rot_dir, hold)`. -/
def Stepper.rotate_revs (s : Stepper) (revs : ℤ) (rot_dir : ℤ) (hold : Bool) :
    Except PyError MoveTrace :=
  s.mode (s.revs_to_steps revs) rot_dir hold

/-- `rotate_steps(steps, rot_dir, hold)`. -/
def Stepper.rotate_steps (s : Stepper) (steps : ℤ) (rot_dir : ℤ) (hold : Bool) :
    Except PyError MoveTrace :=
  s.mode (.pint steps) rot_dir hold

/-! ## Helper lemmas -/

/-- Truncation of an integer is the integer itself. -/
theorem pyInt_intCast (z : ℤ) : pyInt ((z : ℚ)) = z := by
  unfold pyInt
  split_ifs
  · exact Int.floor_intCast z
  · exact Int.ceil_intCast z

/-- Python `int()` truncation is monotone. -/
theorem pyInt_mono {p q : ℚ} (h : p ≤ q) : pyInt p ≤ pyInt q := by
  unfold pyInt
  split_ifs with h1 h2 h2
  · exact Int.floor_le_floor h
  · exact absurd (le_trans h1 h) h2
  · calc ⌈p⌉ ≤ 0 := Int.ceil_le.mpr (by exact_mod_cast le_of_not_le h1)
      _ ≤ ⌊q⌋ := Int.floor_nonneg.mpr h2
  · exact Int.ceil_le_ceil h

/-- Without acceleration the loop variable `step_interval` never changes. -/
theorem siSeq_false_eq (a d inc si0 : ℚ) : ∀ i, siSeq false a d inc si0 i = si0
  | 0 => rfl
  | i + 1 => by simp [siSeq, siSeq_false_eq a d inc si0 i]

/-- Mapping a constant over `List.range`. -/
theorem range_map_const (m : ℕ) (c : ℤ) :
    (List.range m).map (fun _ => c) = List.replicate m c := by
  induction m with
  | zero => rfl
  | succ k ih => simp [List.range_succ, ih, List.replicate_succ']

/-- A flat move (`accel_rate == 0`) over `n` requested steps: direction and
enable setup, `n` pulses all at `int(target_step_us / 2)`, hold policy. -/
theorem mode_flat (s : Stepper) (n : ℤ) (d : ℤ) (h : Bool) (hacc : s.accel_rate = 0) :
    s.mode (.pint n) d h =
      .ok { dirSet := if s.hasDir then some d else none, enAsserted := s.hasEn,
            intervals := List.replicate n.toNat (pyInt (s.target_step_us / 2)),
            enFinal := if s.hasEn then some h else none } := by
  have hfun : (fun i => pyInt (siSeq false 0 0 0 ((pyInt (s.target_step_us / 2) : ℚ)) i))
      = fun _ : ℕ => pyInt (s.target_step_us / 2) :=
    funext fun i => by rw [siSeq_false_eq, pyInt_intCast]
  unfold Stepper.mode
  rw [if_pos hacc]
  simp only [Stepper.runLoop]
  rw [hfun, range_map_const]

/-- Inversion for a completed `runLoop`. -/
theorem runLoop_ok_inv (s : Stepper) (v : PyNum) (d : ℤ) (hold : Bool)
    (ha : Bool) (a dd inc si0 : ℚ) (t : MoveTrace)
    (h : s.runLoop v d hold ha a dd inc si0 = .ok t) :
    t.dirSet = (if s.hasDir then some d else none) ∧ t.enAsserted = s.hasEn ∧
      t.enFinal = (if s.hasEn then some hold else none) := by
  cases v with
  | pfloat q => exact absurd h (by simp [Stepper.runLoop])
  | pint m =>
      simp only [Stepper.runLoop] at h
      cases Except.ok.inj h
      exact ⟨rfl, rfl, rfl⟩

/-- Inversion for a completed `mode` call: the direction/enable effects. -/
theorem mode_ok_inv (s : Stepper) (v : PyNum) (d : ℤ) (hold : Bool) (t : MoveTrace)
    (h : s.mode v d hold = .ok t) :
    t.dirSet = (if s.hasDir then some d else none) ∧ t.enAsserted = s.hasEn ∧
      t.enFinal = (if s.hasEn then some hold else none) := by
  unfold Stepper.mode at h
  by_cases hacc : s.accel_rate = 0
  · rw [if_pos hacc] at h
    exact runLoop_ok_inv s v d hold false 0 0 0 _ t h
  · rw [if_neg hacc] at h
    by_cases hz : s.steps_to_accel v.toQ = 0
    · rw [if_pos hz] at h
      exact absurd h (by simp)
    · rw [if_neg hz] at h
      exact runLoop_ok_inv s v d hold true _ _ _ _ t h


/-! ## Claims -/

/-- Claim C1 (corrected): a rotate call with `stepCount == 0` is only
error-free when `accelFraction == 0` — then it performs direction/enable
setup, executes zero pulses and applies the hold policy; with any nonzero
`accel_rate` it raises `ZeroDivisionError` (from
`increment = delta_accel / steps_to_accel` with `steps_to_accel == 0`)
before the direction/enable setup. -/
theorem C1_theorem (s : Stepper) (rot_dir : ℤ) (hold : Bool) :
    (s.accel_rate = 0 → s.mode (.pint 0) rot_dir hold =
      .ok { dirSet := if s.hasDir then some rot_dir else none, enAsserted := s.hasEn,
            intervals := [], enFinal := if s.hasEn then some hold else none }) ∧
    (s.accel_rate ≠ 0 → s.mode (.pint 0) rot_dir hold = .error .zeroDivisionError) := by
  constructor
  · intro h
    rw [mode_flat s 0 rot_dir hold h]
    rfl
  · intro h
    unfold Stepper.mode
    rw [if_neg h, if_pos]
    simp [Stepper.steps_to_accel, PyNum.toQ]

/-- Claim C1 witness: the zero-step flat move on a concrete stepper. -/
theorem C1_witness :
    (Stepper.init true true).mode (.pint 0) 1 false =
      .ok { dirSet := some 1, enAsserted := true, intervals := [], enFinal := some false } := by
  have h := (C1_theorem (Stepper.init true true) 1 false).1 rfl
  simpa using h

unseal Rat.mul Rat.inv Rat.add Rat.sub in
/-- Claim C1 counterexample: with `accel_rate = 0.5` a zero-step rotate
raises `ZeroDivisionError`, so it is not error-free for every configuration. -/
theorem C1_counterexample :
    ((Stepper.init true true).set_accel_rate 50).mode (.pint 0) 1 false =
      .error .zeroDivisionError := by rfl

unseal Rat.mul Rat.inv Rat.add Rat.sub in
/-- Claim C2 (code bug): `rotate_degs` computes the step count as the float
`degs / 360 * 200 * microsteps` without any rounding; even for 90 degrees at
`microsteps = 1` (an exact 50.0) the value stays a float, and
`range(float)` raises `TypeError`, so the move never pulses. -/
theorem C2_theorem :
    (Stepper.init true true).degs_to_steps 90 = .pfloat 50 ∧
    (Stepper.init true true).rotate_degs 90 1 false = .error .typeError := by
  constructor <;> rfl

/-- Counting the loop indices below a rational bound: there are
`min n ⌈c⌉⁺` of them, a ceiling (not a floor) count. -/
theorem length_filter_range_lt (c : ℚ) (n : ℕ) :
    ((List.range n).filter (fun i : ℕ => decide ((i : ℚ) < c))).length = min n ⌈c⌉.toNat := by
  induction n with
  | zero => simp
  | succ k ih =>
      rw [List.range_succ, List.filter_append, List.length_append, ih]
      by_cases h : (k : ℚ) < c
      · have hk : k < ⌈c⌉.toNat := Int.lt_toNat.mpr (Int.lt_ceil.mpr h)
        simp only [List.filter_cons, List.filter_nil, decide_eq_true_eq, if_pos h]
        simp only [List.length_cons, List.length_nil]
        omega
      · have hk : ¬ k < ⌈c⌉.toNat := fun hx => h (Int.lt_ceil.mp (Int.lt_toNat.mp hx))
        simp only [List.filter_cons, List.filter_nil, decide_eq_true_eq, if_neg h]
        simp only [List.length_nil]
        omega

/-- Claim C3 (corrected): the ramp boundaries carry no `floor`:
`accel_point = stepCount * accelFraction / 2` exactly and
`decel_point = (stepCount - 1) - stepCount * accelFraction / 2`; the number
of loop indices in the acceleration region is the *ceiling*
`min n ⌈stepCount * accelFraction / 2⌉⁺`, not the floor. -/
theorem C3_theorem (s : Stepper) (n : ℕ) :
    s.accel_point (n : ℚ) = (n : ℚ) * s.accel_rate / 2 ∧
    s.decel_point (n : ℚ) = ((n : ℚ) - 1) - (n : ℚ) * s.accel_rate / 2 ∧
    ((List.range n).filter (fun i : ℕ => decide ((i : ℚ) < s.accel_point (n : ℚ)))).length
      = min n ⌈(n : ℚ) * s.accel_rate / 2⌉.toNat :=
  ⟨rfl, rfl, length_filter_range_lt _ n⟩

unseal Rat.mul Rat.inv Rat.add Rat.sub in
/-- Claim C3 counterexample: at `stepCount = 10`, `accelFraction = 0.5` the
code's boundaries are `2.5` and `6.5`, not the claimed
`floor(10 * 0.5 / 2) = 2` and `(10 - 1) - 2 = 7`. -/
theorem C3_counterexample :
    ((Stepper.init true true).set_accel_rate 50).accel_point 10 = 5 / 2 ∧
    ((5 : ℚ) / 2) ≠
      ((⌊(10 : ℚ) * ((Stepper.init true true).set_accel_rate 50).accel_rate / 2⌋ : ℤ) : ℚ) ∧
    ((Stepper.init true true).set_accel_rate 50).decel_point 10 = 13 / 2 ∧
    ((13 : ℚ) / 2) ≠ ((10 : ℚ) - 1) -
      ((⌊(10 : ℚ) * ((Stepper.init true true).set_accel_rate 50).accel_rate / 2⌋ : ℤ) : ℚ) := by
  refine ⟨by decide, by decide, by decide, by decide⟩

/-- Claim C6 (confirmed): assigning any value outside `{1,2,4,8,16,32}` to
`microsteps` leaves the whole object unchanged, and doing it twice equals
doing it zero times. -/
theorem C6_theorem (s : Stepper) (u : ℤ)
    (hu : ¬(u = 1 ∨ u = 2 ∨ u = 4 ∨ u = 8 ∨ u = 16 ∨ u = 32)) :
    s.set_microsteps u = s ∧ (s.set_microsteps u).set_microsteps u = s := by
  have h : s.set_microsteps u = s := by
    unfold Stepper.set_microsteps
    rw [if_neg hu]
  exact ⟨h, by rw [h, h]⟩

/-- Claim C6 witness: rejecting the invalid value 3 on a concrete stepper. -/
theorem C6_witness :
    ¬((3 : ℤ) = 1 ∨ (3 : ℤ) = 2 ∨ (3 : ℤ) = 4 ∨ (3 : ℤ) = 8 ∨ (3 : ℤ) = 16 ∨ (3 : ℤ) = 32) ∧
    (Stepper.init true true).set_microsteps 3 = Stepper.init true true ∧
    ((Stepper.init true true).set_microsteps 3).set_microsteps 3 = Stepper.init true true :=
  ⟨by decide, (C6_theorem (Stepper.init true true) 3 (by decide)).1,
    (C6_theorem (Stepper.init true true) 3 (by decide)).2⟩

/-- Claim C8 (confirmed): on completion of any rotate call, the enable line
is deasserted exactly when it exists and `hold == false`; with `hold == true`
it stays asserted, and without an enable line there is nothing to drive;
during the move the enable line (when present) was asserted. -/
theorem C8_theorem (s : Stepper) (v : PyNum) (d : ℤ) (hold : Bool) (t : MoveTrace)
    (h : s.mode v d hold = .ok t) :
    (s.hasEn = true ∧ hold = false → t.enFinal = some false) ∧
    (s.hasEn = true ∧ hold = true → t.enFinal = some true) ∧
    (s.hasEn = false → t.enFinal = none) ∧
    (s.hasEn = true → t.enAsserted = true) := by
  obtain ⟨-, h2, h3⟩ := mode_ok_inv s v d hold t h
  refine ⟨fun hx => ?_, fun hx => ?_, fun hx => ?_, fun hx => ?_⟩
  · rw [h3, if_pos hx.1, hx.2]
  · rw [h3, if_pos hx.1, hx.2]
  · rw [h3, if_neg (by rw [hx]; exact Bool.false_ne_true)]
  · rw [h2, hx]

unseal Rat.mul Rat.inv Rat.add Rat.sub in
/-- Claim C8 witness: a completed two-step move with `hold = false`
deasserts the enable line. -/
theorem C8_witness :
    ({ dirSet := some 1, enAsserted := true, intervals := [750, 750],
       enFinal := some false } : MoveTrace).enFinal = some false :=
  (C8_theorem (Stepper.init true true) (.pint 2) 1 false
    { dirSet := some 1, enAsserted := true, intervals := [750, 750], enFinal := some false }
    (by rfl)).1 ⟨rfl, rfl⟩

/-- Claim C9 (confirmed): a valid `microsteps` assignment mutates only the
`microsteps` field — both cached step intervals, both speeds, the accel rate
and the pin configuration are untouched — so a subsequent flat move still
pulses at `int(old target_step_us / 2)`. -/
theorem C9_theorem (s : Stepper) (u : ℤ)
    (hu : u = 1 ∨ u = 2 ∨ u = 4 ∨ u = 8 ∨ u = 16 ∨ u = 32) :
    (s.set_microsteps u).microsteps = u ∧
    (s.set_microsteps u).initial_step_us = s.initial_step_us ∧
    (s.set_microsteps u).target_step_us = s.target_step_us ∧
    (s.set_microsteps u).initial_speed = s.initial_speed ∧
    (s.set_microsteps u).target_speed = s.target_speed ∧
    (s.set_microsteps u).accel_rate = s.accel_rate ∧
    (s.set_microsteps u).hasDir = s.hasDir ∧
    (s.set_microsteps u).hasEn = s.hasEn ∧
    (s.accel_rate = 0 → ∀ (n : ℤ) (d : ℤ) (h : Bool),
      (s.set_microsteps u).mode (.pint n) d h =
        .ok { dirSet := if s.hasDir then some d else none, enAsserted := s.hasEn,
              intervals := List.replicate n.toNat (pyInt (s.target_step_us / 2)),
              enFinal := if s.hasEn then some h else none }) := by
  have hset : s.set_microsteps u = { s with microsteps := u } := by
    unfold Stepper.set_microsteps
    rw [if_pos hu]
  rw [hset]
  refine ⟨rfl, rfl, rfl, rfl, rfl, rfl, rfl, rfl, fun hacc n d h => ?_⟩
  exact mode_flat { s with microsteps := u } n d h hacc

unseal Rat.mul Rat.inv Rat.add Rat.sub in
/-- Claim C9 witness: setting `microsteps := 8` on the default stepper keeps
the cached 1500 µs target interval and a flat move still sleeps 750 µs. -/
theorem C9_witness :
    ((Stepper.init true true).set_microsteps 8).microsteps = 8 ∧
    ((Stepper.init true true).set_microsteps 8).target_step_us
      = (Stepper.init true true).target_step_us ∧
    ((Stepper.init true true).set_microsteps 8).mode (.pint 2) 1 false =
      .ok { dirSet := some 1, enAsserted := true, intervals := [750, 750],
            enFinal := some false } := by
  have h := C9_theorem (Stepper.init true true) 8 (by decide)
  refine ⟨h.1, h.2.2.1, ?_⟩
  have h9 := h.2.2.2.2.2.2.2.2 rfl 2 1 false
  exact h9

/-- Claim C10 (confirmed): the speed setters do not validate `rpm > 0`:
assigning 0 raises `ZeroDivisionError` inside `get_step_us`, and at that
point the rpm field has already been overwritten while the cached step
interval still holds its old value. -/
theorem C10_theorem (s : Stepper) :
    (s.set_initial_speed 0).2 = some PyError.zeroDivisionError ∧
    (s.set_initial_speed 0).1.initial_speed = 0 ∧
    (s.set_initial_speed 0).1.initial_step_us = s.initial_step_us ∧
    (s.set_target_speed 0).2 = some PyError.zeroDivisionError ∧
    (s.set_target_speed 0).1.target_speed = 0 ∧
    (s.set_target_speed 0).1.target_step_us = s.target_step_us := by
  have h0 : (6 : ℚ) * (0 : ℚ) * (s.microsteps : ℚ) = 0 := by ring
  unfold Stepper.set_initial_speed Stepper.set_target_speed Stepper.get_step_us
  simp [h0]

/-- Floor of an integer halved, as integer division. -/
theorem floor_intCast_div_two (k : ℤ) : ⌊(k : ℚ) / 2⌋ = k / 2 := by
  have h : ((k : ℚ) / 2) = (k : ℚ) / ((2 : ℕ) : ℚ) := by norm_num
  rw [h, Rat.floor_intCast_div_natCast]
  norm_num

/-- Truncation of a nonnegative integer halved is integer division by 2. -/
theorem pyInt_intCast_div_two (k : ℤ) (hk : 0 ≤ k) : pyInt ((k : ℚ) / 2) = k / 2 := by
  unfold pyInt
  rw [if_pos (div_nonneg (by exact_mod_cast hk) (by norm_num)), floor_intCast_div_two]

/-- Claim C7 (confirmed): with `accel_rate == 0` a move over `n` requested
steps completes with exactly `n` pulses, every half interval equal to
`int(target_step_us / 2)` (so each pulse period is `2 * that`, which is the
cached full step interval up to the one-microsecond truncation loss); in
particular `rotate_revs(1)` yields exactly 200 pulses at `microsteps = 1`
and exactly 1600 at `microsteps = 8`. -/
theorem C7_theorem (s : Stepper) (n : ℤ) (d : ℤ) (h : Bool) (hacc : s.accel_rate = 0) :
    s.mode (.pint n) d h =
      .ok { dirSet := if s.hasDir then some d else none, enAsserted := s.hasEn,
            intervals := List.replicate n.toNat (pyInt (s.target_step_us / 2)),
            enFinal := if s.hasEn then some h else none } ∧
    (∀ k : ℤ, s.target_step_us = (k : ℚ) → 0 ≤ k →
      2 * pyInt (s.target_step_us / 2) = k ∨ 2 * pyInt (s.target_step_us / 2) = k - 1) ∧
    (s.microsteps = 1 →
      s.rotate_revs 1 d h =
        .ok { dirSet := if s.hasDir then some d else none, enAsserted := s.hasEn,
              intervals := List.replicate 200 (pyInt (s.target_step_us / 2)),
              enFinal := if s.hasEn then some h else none }) ∧
    (s.microsteps = 8 →
      s.rotate_revs 1 d h =
        .ok { dirSet := if s.hasDir then some d else none, enAsserted := s.hasEn,
              intervals := List.replicate 1600 (pyInt (s.target_step_us / 2)),
              enFinal := if s.hasEn then some h else none }) := by
  refine ⟨mode_flat s n d h hacc, fun k hk hk0 => ?_, fun hms => ?_, fun hms => ?_⟩
  · rw [hk, pyInt_intCast_div_two k hk0]
    omega
  · have h200 : s.revs_to_steps 1 = .pint 200 := by
      unfold Stepper.revs_to_steps
      rw [hms]
      decide
    unfold Stepper.rotate_revs
    rw [h200, mode_flat s 200 d h hacc]
    rfl
  · have h1600 : s.revs_to_steps 1 = .pint 1600 := by
      unfold Stepper.revs_to_steps
      rw [hms]
      decide
    unfold Stepper.rotate_revs
    rw [h1600, mode_flat s 1600 d h hacc]
    rfl

unseal Rat.mul Rat.inv Rat.add Rat.sub in
/-- Claim C7 witness: one revolution on the default configuration gives
exactly 200 pulses of 750 µs half interval. -/
theorem C7_witness :
    (Stepper.init true true).rotate_revs 1 1 false =
      .ok { dirSet := some 1, enAsserted := true, intervals := List.replicate 200 750,
            enFinal := some false } := by
  have h := (C7_theorem (Stepper.init true true) 0 1 false rfl).2.2.1 rfl
  exact h

/-- The `set_target_speed` setter on a successful `get_step_us` call. -/
theorem set_target_speed_ok (s : Stepper) (v : ℚ) (f : ℤ)
    (hf : s.get_step_us v = .ok f) :
    s.set_target_speed v = ({ s with target_speed := v, target_step_us := (f : ℚ) }, none) := by
  have h : ({ s with target_speed := v } : Stepper).get_step_us v = .ok f := hf
  simp only [Stepper.set_target_speed, h]

/-- Doubling the denominator of the ceiling-then-halve pipeline changes the
resulting truncated half interval to half of the original, within one. -/
theorem ceil_half_pair (x : ℚ) (hx : 0 < x) :
    2 * pyInt ((⌈x / 2⌉ : ℚ) / 2) - pyInt ((⌈x⌉ : ℚ) / 2) ∈ ({-1, 0, 1} : Set ℤ) := by
  have hc1 : 0 ≤ ⌈x⌉ := le_of_lt (Int.ceil_pos.mpr hx)
  have hc2 : 0 ≤ ⌈x / 2⌉ := le_of_lt (Int.ceil_pos.mpr (by positivity))
  have h1 : ⌈x⌉ ≤ 2 * ⌈x / 2⌉ := by
    rw [Int.ceil_le]
    push_cast
    have := Int.le_ceil (x / 2)
    linarith
  have h2 : 2 * ⌈x / 2⌉ ≤ ⌈x⌉ + 1 := by
    have ha := Int.ceil_lt_add_one (x / 2)
    have hb := Int.le_ceil x
    have hq : ((2 * ⌈x / 2⌉ : ℤ) : ℚ) < ((⌈x⌉ + 2 : ℤ) : ℚ) := by push_cast; linarith
    have hz : (2 * ⌈x / 2⌉ : ℤ) < ⌈x⌉ + 2 := by exact_mod_cast hq
    omega
  rw [pyInt_intCast_div_two _ hc1, pyInt_intCast_div_two _ hc2]
  simp only [Set.mem_insert_iff, Set.mem_singleton_iff]
  omega

/-- Claim C4 (corrected): `get_step_us` returns the full interval
`ceil(1.8 / (6 * rpm * microsteps) * 1e6)`, but the half interval the loop
actually sleeps is its *truncated* half `int(full / 2) = floor(full / 2)`,
not the exact `full / 2`; doubling the microstepping at fixed rpm halves
that half interval to within one microsecond. -/
theorem C4_theorem (s s2 : Stepper) (rpm : ℚ) (f f2 : ℤ)
    (hr : 0 < rpm) (hm : 0 < s.microsteps) (hacc : s.accel_rate = 0)
    (h2 : (s2.microsteps : ℚ) = 2 * (s.microsteps : ℚ))
    (hf : s.get_step_us rpm = .ok f) (hf2 : s2.get_step_us rpm = .ok f2) :
    (f : ℚ) = ((⌈(18 / 10 : ℚ) / (6 * rpm * (s.microsteps : ℚ)) * 10 ^ 6⌉ : ℤ) : ℚ) ∧
    ((s.set_target_speed rpm).1).mode (.pint 1) 1 false =
      .ok { dirSet := if s.hasDir then some 1 else none, enAsserted := s.hasEn,
            intervals := [pyInt ((f : ℚ) / 2)],
            enFinal := if s.hasEn then some false else none } ∧
    pyInt ((f : ℚ) / 2) = ⌊(f : ℚ) / 2⌋ ∧
    2 * pyInt ((f2 : ℚ) / 2) - pyInt ((f : ℚ) / 2) ∈ ({-1, 0, 1} : Set ℤ) := by
  have hmq : (0 : ℚ) < (s.microsteps : ℚ) := by exact_mod_cast hm
  have hden : (0 : ℚ) < 6 * rpm * (s.microsteps : ℚ) := by positivity
  have hx : (0 : ℚ) < (18 / 10 : ℚ) / (6 * rpm * (s.microsteps : ℚ)) * 10 ^ 6 := by positivity
  have hfval : f = ⌈(18 / 10 : ℚ) / (6 * rpm * (s.microsteps : ℚ)) * 10 ^ 6⌉ := by
    unfold Stepper.get_step_us at hf
    rw [if_neg hden.ne'] at hf
    exact (Except.ok.inj hf).symm
  have hx2 : (18 / 10 : ℚ) / (6 * rpm * (s2.microsteps : ℚ)) * 10 ^ 6
      = ((18 / 10 : ℚ) / (6 * rpm * (s.microsteps : ℚ)) * 10 ^ 6) / 2 := by
    rw [h2]
    field_simp
    ring
  have hf2val : f2 = ⌈((18 / 10 : ℚ) / (6 * rpm * (s.microsteps : ℚ)) * 10 ^ 6) / 2⌉ := by
    have hden2 : (0 : ℚ) < 6 * rpm * (s2.microsteps : ℚ) := by
      rw [h2]; positivity
    unfold Stepper.get_step_us at hf2
    rw [if_neg hden2.ne'] at hf2
    rw [← hx2]
    exact (Except.ok.inj hf2).symm
  have hf0 : 0 ≤ f := by
    rw [hfval]
    exact le_of_lt (Int.ceil_pos.mpr hx)
  refine ⟨by rw [hfval], ?_, ?_, ?_⟩
  · rw [set_target_speed_ok s rpm f hf]
    rw [mode_flat { s with target_speed := rpm, target_step_us := (f : ℚ) } 1 1 false hacc]
    norm_num
  · unfold pyInt
    rw [if_pos (div_nonneg (by exact_mod_cast hf0) (by norm_num))]
  · rw [hfval, hf2val]
    exact ceil_half_pair _ hx

unseal Rat.mul Rat.inv Rat.add Rat.sub in
/-- Claim C4 counterexample: at 101 rpm, `microsteps = 1`, the full interval
is 2971 µs (odd), the loop sleeps 1485 µs per half phase, and
`1485 ≠ 2971 / 2`: the used half interval is not `ceil(...) / 2` exactly. -/
theorem C4_counterexample :
    ((Stepper.init true true).set_target_speed 101).1.rotate_steps 1 1 false =
      .ok { dirSet := some 1, enAsserted := true, intervals := [1485],
            enFinal := some false } ∧
    ((Stepper.init true true).set_target_speed 101).1.target_step_us = 2971 ∧
    (1485 : ℚ) ≠ 2971 / 2 := by
  refine ⟨by rfl, by rfl, by norm_num⟩

unseal Rat.mul Rat.inv Rat.add Rat.sub in
/-- Claim C4 witness: at the default 200 rpm, `microsteps = 1` gives the full
interval 1500 and half interval 750; `microsteps = 2` gives 750 and 375,
exactly half. -/
theorem C4_witness :
    ((Stepper.init true true).set_target_speed 200).1.mode (.pint 1) 1 false =
      .ok { dirSet := some 1, enAsserted := true, intervals := [750],
            enFinal := some false } ∧
    2 * pyInt (((750 : ℤ) : ℚ) / 2) - pyInt (((1500 : ℤ) : ℚ) / 2) ∈ ({-1, 0, 1} : Set ℤ) := by
  have h := C4_theorem (Stepper.init true true) ((Stepper.init true true).set_microsteps 2)
    200 1500 750 (by norm_num) (by decide) rfl (by decide) (by rfl) (by rfl)
  exact ⟨h.2.1, h.2.2.2⟩

/-- Unfolding one loop iteration of the accelerated interval sequence. -/
theorem siSeq_true_succ (a d inc si0 : ℚ) (i : ℕ) :
    siSeq true a d inc si0 (i + 1) = rampAdjust a d inc i (siSeq true a d inc si0 i) := by
  simp [siSeq]

/-- Below the acceleration boundary the interval sequence is non-increasing. -/
theorem siSeq_anti (a d inc si0 : ℚ) (hinc : 0 ≤ inc) :
    ∀ (j i : ℕ), i ≤ j → (j : ℚ) < a →
      siSeq true a d inc si0 j ≤ siSeq true a d inc si0 i := by
  intro j
  induction j with
  | zero =>
      intro i hij _
      have h0 : i = 0 := Nat.le_zero.mp hij
      rw [h0]
  | succ k ih =>
      intro i hij hj
      have hcast : ((k + 1 : ℕ) : ℚ) = (k : ℚ) + 1 := by push_cast; ring
      have hk : (k : ℚ) < a := by rw [hcast] at hj; linarith
      by_cases hik : i ≤ k
      · have step : siSeq true a d inc si0 (k + 1) = siSeq true a d inc si0 k - inc := by
          rw [siSeq_true_succ]
          unfold rampAdjust
          rw [if_pos hk]
        rw [step]
        have := ih i hik hk
        linarith
      · have h1 : i = k + 1 := by omega
        rw [h1]

/-- Between the two boundaries the interval sequence is constant. -/
theorem siSeq_cruise (a d inc si0 : ℚ) :
    ∀ (j i : ℕ), i ≤ j → a ≤ (i : ℚ) → (j : ℚ) < d →
      siSeq true a d inc si0 j = siSeq true a d inc si0 i := by
  intro j
  induction j with
  | zero =>
      intro i hij _ _
      have h0 : i = 0 := Nat.le_zero.mp hij
      rw [h0]
  | succ k ih =>
      intro i hij hi hj
      have hcast : ((k + 1 : ℕ) : ℚ) = (k : ℚ) + 1 := by push_cast; ring
      have hkd : (k : ℚ) < d := by rw [hcast] at hj; linarith
      by_cases hik : i ≤ k
      · have hikq : (i : ℚ) ≤ (k : ℚ) := by exact_mod_cast hik
        have step : siSeq true a d inc si0 (k + 1) = siSeq true a d inc si0 k := by
          rw [siSeq_true_succ]
          unfold rampAdjust
          rw [if_neg (not_lt.mpr (le_trans hi hikq)), if_neg (not_le.mpr hkd)]
        rw [step]
        exact ih i hik hi hkd
      · have h1 : i = k + 1 := by omega
        rw [h1]

/-- At or past the deceleration boundary (when it does not undercut the
acceleration boundary) the interval sequence is non-decreasing. -/
theorem siSeq_mono_decel (a d inc si0 : ℚ) (hinc : 0 ≤ inc) (had : a ≤ d) :
    ∀ (j i : ℕ), i ≤ j → d ≤ (i : ℚ) →
      siSeq true a d inc si0 i ≤ siSeq true a d inc si0 j := by
  intro j
  induction j with
  | zero =>
      intro i hij _
      have h0 : i = 0 := Nat.le_zero.mp hij
      rw [h0]
  | succ k ih =>
      intro i hij hi
      by_cases hik : i ≤ k
      · have hikq : (i : ℚ) ≤ (k : ℚ) := by exact_mod_cast hik
        have hdk : d ≤ (k : ℚ) := le_trans hi hikq
        have step : siSeq true a d inc si0 (k + 1) = siSeq true a d inc si0 k + inc := by
          rw [siSeq_true_succ]
          unfold rampAdjust
          rw [if_neg (not_lt.mpr (le_trans had hdk)), if_pos hdk]
        rw [step]
        have := ih i hik hi
        linarith
      · have h1 : i = k + 1 := by omega
        rw [h1]

/-- An accelerated move (`accel_rate != 0`, `steps_to_accel != 0`) runs the
loop from `int(initial_step_us / 2)` with the ramp parameters. -/
theorem mode_accel (s : Stepper) (m : ℤ) (d : ℤ) (h : Bool)
    (hacc : ¬ s.accel_rate = 0) (hsta : ¬ s.steps_to_accel ((m : ℚ)) = 0) :
    s.mode (.pint m) d h =
      .ok { dirSet := if s.hasDir then some d else none, enAsserted := s.hasEn,
            intervals := (List.range m.toNat).map
              (fun i => pyInt (siSeq true (s.accel_point (m : ℚ)) (s.decel_point (m : ℚ))
                (s.increment (m : ℚ)) ((pyInt (s.initial_step_us / 2) : ℚ)) i)),
            enFinal := if s.hasEn then some h else none } := by
  unfold Stepper.mode
  simp only [PyNum.toQ]
  rw [if_neg hacc, if_neg hsta]
  simp only [Stepper.runLoop]

/-- Element extraction from a mapped range. -/
theorem getD_range_map (f : ℕ → ℤ) (n i : ℕ) (h : i < n) :
    ((List.range n).map f).getD i 0 = f i := by
  rw [List.getD_eq_getElem?_getD, List.getElem?_map, List.getElem?_range h]
  rfl

/-- Claim C5 (corrected): provided additionally that the ramp phases do not
overlap (`stepCount * accelFraction ≤ stepCount - 1`, equivalent to
`accel_point ≤ decel_point`) and that the cached initial interval is at
least the target interval (initial speed no faster than cruise), the slept
half intervals are non-increasing before `accel_point`, constant on
`[accel_point, decel_point)` and non-decreasing from `decel_point` on. -/
theorem C5_theorem (s : Stepper) (n : ℕ) (rot_dir : ℤ) (hold : Bool) (t : MoveTrace)
    (hr0 : 0 < s.accel_rate) (hr1 : s.accel_rate ≤ 1)
    (hramp : 1 ≤ (n : ℚ) * s.accel_rate / 2)
    (hsep : (n : ℚ) * s.accel_rate ≤ (n : ℚ) - 1)
    (hmono : s.target_step_us ≤ s.initial_step_us)
    (ht : s.mode (.pint (n : ℤ)) rot_dir hold = .ok t) :
    (∀ (i j : ℕ), i ≤ j → j < n → (j : ℚ) < s.accel_point (n : ℚ) →
      t.intervals.getD j 0 ≤ t.intervals.getD i 0) ∧
    (∀ (i j : ℕ), i ≤ j → j < n → s.accel_point (n : ℚ) ≤ (i : ℚ) →
      (j : ℚ) < s.decel_point (n : ℚ) →
      t.intervals.getD i 0 = t.intervals.getD j 0) ∧
    (∀ (i j : ℕ), i ≤ j → j < n → s.decel_point (n : ℚ) ≤ (i : ℚ) →
      t.intervals.getD i 0 ≤ t.intervals.getD j 0) := by
  have hcast : (((n : ℤ) : ℚ)) = (n : ℚ) := by push_cast; ring
  have hsta0 : (0 : ℚ) < s.steps_to_accel ((n : ℚ)) := by
    unfold Stepper.steps_to_accel
    linarith
  have hsta : ¬ s.steps_to_accel ((((n : ℤ)) : ℚ)) = 0 := by
    rw [hcast]
    exact hsta0.ne'
  have hm := mode_accel s (n : ℤ) rot_dir hold hr0.ne' hsta
  rw [hcast] at hm
  have htn : Int.toNat ((n : ℤ)) = n := Int.toNat_natCast n
  rw [htn] at hm
  obtain rfl : t = _ := Except.ok.inj (ht.symm.trans hm)
  have hinc : 0 ≤ s.increment (n : ℚ) := by
    unfold Stepper.increment
    exact div_nonneg (by linarith) (le_of_lt hsta0)
  have had : s.accel_point (n : ℚ) ≤ s.decel_point (n : ℚ) := by
    unfold Stepper.accel_point Stepper.decel_point Stepper.steps_to_accel
    unfold Stepper.steps_to_accel at hsta0
    linarith
  refine ⟨fun i j hij hjn hja => ?_, fun i j hij hjn hia hjd => ?_, fun i j hij hjn hid => ?_⟩
  · rw [getD_range_map _ n j hjn, getD_range_map _ n i (lt_of_le_of_lt hij hjn)]
    exact pyInt_mono (siSeq_anti _ _ _ _ hinc j i hij hja)
  · rw [getD_range_map _ n j hjn, getD_range_map _ n i (lt_of_le_of_lt hij hjn)]
    rw [siSeq_cruise _ _ _ _ j i hij hia hjd]
  · rw [getD_range_map _ n j hjn, getD_range_map _ n i (lt_of_le_of_lt hij hjn)]
    exact pyInt_mono (siSeq_mono_decel _ _ _ _ hinc had j i hij hid)

unseal Rat.mul Rat.inv Rat.add Rat.sub in
/-- Claim C5 witness: 200→300 rpm, 50 percent acceleration, ten steps —
the trace decreases to index 2 (`accel_point = 2.5`), is flat on 3..6 and
increases from index 7 (`decel_point = 6.5`). -/
theorem C5_witness :
    ((((Stepper.init true true).set_target_speed 300).1.set_accel_rate 50).mode
        (.pint ((10 : ℕ) : ℤ)) 1 false =
      .ok { dirSet := some 1, enAsserted := true,
            intervals := [750, 650, 550, 450, 450, 450, 450, 450, 550, 650],
            enFinal := some false }) ∧
    ({ dirSet := some 1, enAsserted := true,
       intervals := [750, 650, 550, 450, 450, 450, 450, 450, 550, 650],
       enFinal := some false } : MoveTrace).intervals.getD 2 0 ≤
      ({ dirSet := some 1, enAsserted := true,
         intervals := [750, 650, 550, 450, 450, 450, 450, 450, 550, 650],
         enFinal := some false } : MoveTrace).intervals.getD 0 0 ∧
    ({ dirSet := some 1, enAsserted := true,
       intervals := [750, 650, 550, 450, 450, 450, 450, 450, 550, 650],
       enFinal := some false } : MoveTrace).intervals.getD 3 0 =
      ({ dirSet := some 1, enAsserted := true,
         intervals := [750, 650, 550, 450, 450, 450, 450, 450, 550, 650],
         enFinal := some false } : MoveTrace).intervals.getD 6 0 ∧
    ({ dirSet := some 1, enAsserted := true,
       intervals := [750, 650, 550, 450, 450, 450, 450, 450, 550, 650],
       enFinal := some false } : MoveTrace).intervals.getD 7 0 ≤
      ({ dirSet := some 1, enAsserted := true,
         intervals := [750, 650, 550, 450, 450, 450, 450, 450, 550, 650],
         enFinal := some false } : MoveTrace).intervals.getD 9 0 := by
  have htr : (((Stepper.init true true).set_target_speed 300).1.set_accel_rate 50).mode
      (.pint ((10 : ℕ) : ℤ)) 1 false =
      .ok { dirSet := some 1, enAsserted := true,
            intervals := [750, 650, 550, 450, 450, 450, 450, 450, 550, 650],
            enFinal := some false } := by rfl
  have h5 := C5_theorem (((Stepper.init true true).set_target_speed 300).1.set_accel_rate 50)
    10 1 false
    { dirSet := some 1, enAsserted := true,
      intervals := [750, 650, 550, 450, 450, 450, 450, 450, 550, 650],
      enFinal := some false }
    (by decide) (by decide) (by decide) (by decide) (by decide) htr
  exact ⟨htr, h5.1 0 2 (by decide) (by decide) (by decide),
    h5.2.1 3 6 (by decide) (by decide) (by decide) (by decide),
    h5.2.2 7 9 (by decide) (by decide) (by decide)⟩

unseal Rat.mul Rat.inv Rat.add Rat.sub in
/-- Claim C5 counterexample: at `accelFraction = 1` (in `(0,1]`, with the
claim's `rampSteps = floor(10 * 1 / 2) = 5 ≥ 1`) the code's
`decel_point = (10 - 1) - 5 = 4`, yet the trace still decreases between
indices 4 and 5 (550 to 500): the sequence is not non-decreasing at or past
the deceleration boundary. -/
theorem C5_counterexample :
    ((((Stepper.init true true).set_target_speed 300).1.set_accel_rate 100).mode
        (.pint 10) 1 false =
      .ok { dirSet := some 1, enAsserted := true,
            intervals := [750, 700, 650, 600, 550, 500, 550, 600, 650, 700],
            enFinal := some false }) ∧
    (((Stepper.init true true).set_target_speed 300).1.set_accel_rate 100).accel_rate = 1 ∧
    (((Stepper.init true true).set_target_speed 300).1.set_accel_rate 100).decel_point 10 = 4 ∧
    (1 : ℤ) ≤ ⌊(10 : ℚ) * 1 / 2⌋ ∧
    ([750, 700, 650, 600, 550, 500, 550, 600, 650, 700] : List ℤ).getD 4 0 = 550 ∧
    ([750, 700, 650, 600, 550, 500, 550, 600, 650, 700] : List ℤ).getD 5 0 = 500 ∧
    ¬((550 : ℤ) ≤ 500) := by
  exact ⟨by rfl, by decide, by decide, by decide, by rfl, by rfl, by decide⟩
